import Mathlib

/-!
Verification development for the healthcare voice-agent backend.

This file gives a shallow embedding of the deterministic core of the
repository: the scheduling engine over the in-memory appointment store
(`src/backend/tools/calendar_tools.py`, demo backend, i.e.
`settings.use_google_calendar = false`) and the orchestration pipeline
(`src/backend/agent_router.py`).  External oracles (the LLM calls) are
modelled as explicit `Except`-valued outcome parameters; Python datetimes
are modelled at one-second resolution as `Nat` seconds since 0000-03-01
(sub-second components are not modelled); `datetime.strptime` for the three
formats tried by `_parse_dt` is modelled after CPython's `_strptime`
field regexes, including the 1-or-2-digit field forms and the
calendar-validity check performed by the `datetime` constructor.
-/

/-! ## Python string helpers -/

/-- `startsWithL n h` is true when the char list `h` starts with `n`. -/
def startsWithL : List Char → List Char → Bool
  | [], _ => true
  | _ :: _, [] => false
  | a :: as, b :: bs => a = b && startsWithL as bs

/-- Truthiness of an optional string, as Python evaluates `if s:` for a
value that is either `None` or a `str` (empty string is falsy). -/
def pyTruthy : Option String → Bool
  | none => false
  | some s => s ≠ ""

/-- Python `or` on two strings: returns the first operand when it is
truthy (non-empty), otherwise the second. -/
def pyOr (a b : String) : String :=
  if a = "" then b else a

/-- ASCII uppercasing of one character (the strings this code upcases,
appointment ids and uuid prefixes, are ASCII). -/
def charUpper (c : Char) : Char :=
  if 'a' ≤ c ∧ c ≤ 'z' then Char.ofNat (c.toNat - 32) else c

/-- ASCII lowercasing of one character. -/
def charLower (c : Char) : Char :=
  if 'A' ≤ c ∧ c ≤ 'Z' then Char.ofNat (c.toNat + 32) else c

/-- Python `str.upper()` (ASCII range). -/
def pyUpper (s : String) : String := ⟨s.data.map charUpper⟩

/-- Python `str.lower()` (ASCII range). -/
def pyLower (s : String) : String := ⟨s.data.map charLower⟩

/-- The ASCII whitespace characters `str.strip()` removes. -/
def isPySpace (c : Char) : Bool :=
  c = ' ' || c = '\t' || c = '\n' || c = '\r' || c = '\x0b' || c = '\x0c'

/-- Python `str.strip()`: remove whitespace from both ends. -/
def pyStrip (s : String) : String :=
  ⟨((s.data.dropWhile isPySpace).reverse.dropWhile isPySpace).reverse⟩

/-- Python `str.startswith(p)`. -/
def pyStartsWith (s p : String) : Bool := startsWithL p.data s.data

/-- Python `str.endswith(p)`. -/
def pyEndsWith (s p : String) : Bool := startsWithL p.data.reverse s.data.reverse

/-- Python `s[n:]` (character drop). -/
def pyDropChars (n : Nat) (s : String) : String := ⟨s.data.drop n⟩

/-- Left-to-right split on a non-empty separator, with enough fuel to
scan the whole list; keeps empty parts, like Python `str.split(sep)`. -/
def splitOnFuel (sep : List Char) : Nat → List Char → List Char → List (List Char)
  | 0, rest, acc => [acc.reverse ++ rest]
  | fuel + 1, rest, acc =>
    match rest with
    | [] => [acc.reverse]
    | c :: r =>
      if startsWithL sep rest then
        acc.reverse :: splitOnFuel sep fuel (rest.drop sep.length) []
      else
        splitOnFuel sep fuel r (c :: acc)

/-- Python `s.split(sep)` for a non-empty separator. -/
def pySplit (s sep : String) : List String :=
  (splitOnFuel sep.data (s.data.length + 1) s.data []).map (fun l => ⟨l⟩)

/-- Contiguous-substring test on char lists; `listSub n h` models the
Python expression `n in h` for strings. -/
def listSub : List Char → List Char → Bool
  | [], _ => true
  | _ :: _, [] => false
  | n, c :: h => startsWithL n (c :: h) || listSub n h

/-- `strIn needle hay` models Python `needle in hay` for strings. -/
def strIn (needle hay : String) : Bool :=
  listSub needle.data hay.data

/-- Lexicographic (code-point) strict order on char lists, as Python
compares strings. -/
def strLtL : List Char → List Char → Bool
  | [], [] => false
  | [], _ :: _ => true
  | _ :: _, [] => false
  | a :: as, b :: bs =>
    if a.toNat < b.toNat then true
    else if b.toNat < a.toNat then false
    else strLtL as bs

/-- Lexicographic (code-point) order `≤` on char lists, as Python
compares strings. -/
def strLeL : List Char → List Char → Bool
  | [], _ => true
  | _ :: _, [] => false
  | a :: as, b :: bs =>
    if a.toNat < b.toNat then true
    else if b.toNat < a.toNat then false
    else strLeL as bs

/-! ## Date and time arithmetic (second resolution)

Instants are `Nat` seconds since 0000-03-01 (proleptic Gregorian), using
the standard civil-calendar day-number conversion in both directions. -/

/-- Gregorian leap-year test. -/
def isLeap (y : Nat) : Bool :=
  (y % 4 = 0 && y % 100 ≠ 0) || y % 400 = 0

/-- Number of days in month `m` of year `y` (months are 1-12). -/
def daysInMonth (y m : Nat) : Nat :=
  if m = 2 then (if isLeap y then 29 else 28)
  else if m = 4 ∨ m = 6 ∨ m = 9 ∨ m = 11 then 30
  else 31

/-- Day number of the civil date `y-m-d` counted from 0000-03-01
(valid for dates accepted by Python's `datetime`, i.e. `y ≥ 1`). -/
def daysFromCivil (y m d : Nat) : Nat :=
  let y' := if m ≤ 2 then y - 1 else y
  let era := y' / 400
  let yoe := y' % 400
  let mp := if m > 2 then m - 3 else m + 9
  let doy := (153 * mp + 2) / 5 + d - 1
  let doe := yoe * 365 + yoe / 4 - yoe / 100 + doy
  era * 146097 + doe

/-- Inverse of `daysFromCivil`: the civil date of day number `z`. -/
def civilFromDays (z : Nat) : Nat × Nat × Nat :=
  let era := z / 146097
  let doe := z % 146097
  let yoe := (doe - doe / 1460 + doe / 36524 - doe / 146096) / 365
  let y := yoe + era * 400
  let doy := doe - (365 * yoe + yoe / 4 - yoe / 100)
  let mp := (5 * doy + 2) / 153
  let d := doy - (153 * mp + 2) / 5 + 1
  let m := if mp < 10 then mp + 3 else mp - 9
  (if m ≤ 2 then y + 1 else y, m, d)

/-- Seconds since the epoch of the instant `y-m-d h:mi:s`. -/
def toSecs (y m d h mi s : Nat) : Nat :=
  86400 * daysFromCivil y m d + 3600 * h + 60 * mi + s

/-- Distance in seconds between two instants, i.e.
`abs((a - b).total_seconds())` for minute-resolution datetimes. -/
def secDist (a b : Nat) : Nat :=
  max a b - min a b

/-! ## `_parse_dt` : CPython `strptime` field matchers

Each matcher mirrors the regular expression CPython's `_strptime` uses
for the corresponding directive, consuming characters from the front of
the list and returning the numeric value plus the rest. -/

/-- Numeric value of a digit character. -/
def digitVal (c : Char) : Nat := c.toNat - 48

/-- `%Y`: exactly four digits. -/
def matchY : List Char → Option (Nat × List Char)
  | a :: b :: c :: d :: rest =>
    if a.isDigit && b.isDigit && c.isDigit && d.isDigit then
      some (digitVal a * 1000 + digitVal b * 100 + digitVal c * 10 + digitVal d, rest)
    else none
  | _ => none

/-- `%m`: the regex `1[0-2]|0[1-9]|[1-9]`. -/
def matchMonth : List Char → Option (Nat × List Char)
  | '1' :: c :: rest =>
    if '0' ≤ c ∧ c ≤ '2' then some (10 + digitVal c, rest) else some (1, c :: rest)
  | ['1'] => some (1, [])
  | '0' :: c :: rest =>
    if '1' ≤ c ∧ c ≤ '9' then some (digitVal c, rest) else none
  | c :: rest =>
    if '1' ≤ c ∧ c ≤ '9' then some (digitVal c, rest) else none
  | [] => none

/-- `%d`: the regex `3[01]|[12]\d|0[1-9]|[1-9]`. -/
def matchDay : List Char → Option (Nat × List Char)
  | '3' :: c :: rest =>
    if c = '0' ∨ c = '1' then some (30 + digitVal c, rest) else some (3, c :: rest)
  | ['3'] => some (3, [])
  | c :: c2 :: rest =>
    if (c = '1' ∨ c = '2') ∧ c2.isDigit then some (digitVal c * 10 + digitVal c2, rest)
    else if c = '0' ∧ ('1' ≤ c2 ∧ c2 ≤ '9') then some (digitVal c2, rest)
    else if '1' ≤ c ∧ c ≤ '9' then some (digitVal c, c2 :: rest)
    else none
  | [c] => if '1' ≤ c ∧ c ≤ '9' then some (digitVal c, []) else none
  | [] => none

/-- `%H`: the regex `2[0-3]|[0-1]\d|\d`. -/
def matchHour : List Char → Option (Nat × List Char)
  | '2' :: c :: rest =>
    if '0' ≤ c ∧ c ≤ '3' then some (20 + digitVal c, rest) else some (2, c :: rest)
  | ['2'] => some (2, [])
  | c :: c2 :: rest =>
    if (c = '0' ∨ c = '1') ∧ c2.isDigit then some (digitVal c * 10 + digitVal c2, rest)
    else if c.isDigit then some (digitVal c, c2 :: rest)
    else none
  | [c] => if c.isDigit then some (digitVal c, []) else none
  | [] => none

/-- `%M`: the regex `[0-5]\d|\d`. -/
def matchMin : List Char → Option (Nat × List Char)
  | c :: c2 :: rest =>
    if ('0' ≤ c ∧ c ≤ '5') ∧ c2.isDigit then some (digitVal c * 10 + digitVal c2, rest)
    else if c.isDigit then some (digitVal c, c2 :: rest)
    else none
  | [c] => if c.isDigit then some (digitVal c, []) else none
  | [] => none

/-- `%S`: the regex `6[0-1]|[0-5]\d|\d` (values 60-61 are matched by the
regex but rejected afterwards by the `datetime` constructor, which the
validity check in `tryFormat` reproduces). -/
def matchSec : List Char → Option (Nat × List Char)
  | '6' :: c :: rest =>
    if c = '0' ∨ c = '1' then some (60 + digitVal c, rest) else some (6, c :: rest)
  | ['6'] => some (6, [])
  | c :: c2 :: rest =>
    if ('0' ≤ c ∧ c ≤ '5') ∧ c2.isDigit then some (digitVal c * 10 + digitVal c2, rest)
    else if c.isDigit then some (digitVal c, c2 :: rest)
    else none
  | [c] => if c.isDigit then some (digitVal c, []) else none
  | [] => none

/-- Consume one expected literal character. -/
def expectChar (c : Char) : List Char → Option (List Char)
  | x :: rest => if x = c then some rest else none
  | [] => none

/-- One `strptime` attempt for the pattern
`%Y-%m-%d<sep>%H:%M[:%S]`, including the calendar-validity check done by
the `datetime` constructor (`MINYEAR ≤ y`, day in range for the month,
seconds below 60).  Returns the instant in seconds. -/
def tryFormat (sep : Char) (withSec : Bool) (cs : List Char) : Option Nat := do
  let (y, cs) ← matchY cs
  let cs ← expectChar '-' cs
  let (m, cs) ← matchMonth cs
  let cs ← expectChar '-' cs
  let (d, cs) ← matchDay cs
  let cs ← expectChar sep cs
  let (h, cs) ← matchHour cs
  let cs ← expectChar ':' cs
  let (mi, cs) ← matchMin cs
  let (s, cs) ←
    if withSec then do
      let cs ← expectChar ':' cs
      let (s, cs) ← matchSec cs
      pure (s, cs)
    else pure (0, cs)
  if cs = [] ∧ 1 ≤ y ∧ d ≤ daysInMonth y m ∧ s ≤ 59 then
    pure (toSecs y m d h mi s)
  else none

/-- `_parse_dt`: try `"%Y-%m-%dT%H:%M"`, `"%Y-%m-%d %H:%M"`,
`"%Y-%m-%dT%H:%M:%S"` in that order; raise `ValueError` (modelled as
`Except.error`) when none matches. -/
def parseDT (s : String) : Except String Nat :=
  match tryFormat 'T' false s.data with
  | some t => .ok t
  | none =>
    match tryFormat ' ' false s.data with
    | some t => .ok t
    | none =>
      match tryFormat 'T' true s.data with
      | some t => .ok t
      | none => .error ("Cannot parse datetime: " ++ s)

/-! ## `strftime("%Y-%m-%dT%H:%M")` -/

/-- Zero-pad a number to two digits. -/
def pad2 (n : Nat) : String :=
  if n < 10 then "0" ++ toString n else toString n

/-- Zero-pad a number to four digits. -/
def pad4 (n : Nat) : String :=
  if n < 10 then "000" ++ toString n
  else if n < 100 then "00" ++ toString n
  else if n < 1000 then "0" ++ toString n
  else toString n

/-- `strftime("%Y-%m-%dT%H:%M")` of an instant. -/
def formatDT (t : Nat) : String :=
  match civilFromDays (t / 86400) with
  | (y, m, d) =>
    pad4 y ++ "-" ++ pad2 m ++ "-" ++ pad2 d ++ "T" ++
      pad2 (t % 86400 / 3600) ++ ":" ++ pad2 (t % 3600 / 60)

/-! ## The appointment store (in-memory demo backend)

`_demo_appointments : dict[str, dict]` keyed by `appointment_id`; the
dict is modelled as a list in insertion order (every entry's key equals
its `appointment_id` field, as holds for all entries the module ever
inserts). -/

/-- One appointment record, with the fields of the Python dict. -/
structure Appt where
  appointment_id : String
  patient_id : String
  patient_name : String
  provider : String
  date_time : String
  duration_minutes : Int
  reason : String
  status : String
deriving Repr, DecidableEq

/-- The in-memory store `_demo_appointments`, in insertion order. -/
def ApptStore := List Appt
deriving Repr, DecidableEq

instance : Membership Appt ApptStore := inferInstanceAs (Membership Appt (List Appt))

/-- `_demo_appointments.get(k)`: lookup by key. -/
def storeGet (s : ApptStore) (k : String) : Option Appt :=
  List.find? (fun a => a.appointment_id = k) s

/-- `_demo_appointments[a.appointment_id] = a`: replace the entry with
the same key in place, or append a new entry. -/
def storeInsert (a : Appt) : ApptStore → ApptStore
  | [] => [a]
  | b :: s => if b.appointment_id = a.appointment_id then a :: s else b :: storeInsert a s

/-- In-place mutation of the entry with key `k` (Python mutates the dict
value object, leaving its position unchanged). -/
def storeUpdate (k : String) (f : Appt → Appt) : ApptStore → ApptStore
  | [] => []
  | b :: s => if b.appointment_id = k then f b :: s else b :: storeUpdate k f s

/-! ## `list_appointments` (demo mode) -/

/-- One of the two name filters in the listing loop:
`if f and f.lower() not in field.lower(): continue`.  Returns `true`
when the appointment passes (is not skipped). -/
def filterPass (f : Option String) (field : String) : Bool :=
  !(pyTruthy f && !strIn (pyLower (f.getD "")) (pyLower field))

/-- `from_dt = _parse_dt(date_from) if date_from else
now.replace(hour=0, minute=0, second=0)` (at second resolution the
replacement is the start of the current day). -/
def resolveFrom (now : Nat) (date_from : Option String) : Except String Nat :=
  if pyTruthy date_from then parseDT (date_from.getD "")
  else .ok (86400 * (now / 86400))

/-- `to_dt = _parse_dt(date_to) if date_to else from_dt + timedelta(days=7)`. -/
def resolveTo (from_dt : Nat) (date_to : Option String) : Except String Nat :=
  if pyTruthy date_to then parseDT (date_to.getD "")
  else .ok (from_dt + 7 * 86400)

/-- The filtering loop of `list_appointments`: iterate over the store in
insertion order, skipping cancelled entries, parsing each remaining
entry's datetime (a parse failure raises out of the whole call), and
keeping entries inside `[from_dt, to_dt]` that pass both name filters. -/
def filterAppts (from_dt to_dt : Nat) (patient_name provider : Option String) :
    List Appt → Except String (List Appt)
  | [] => .ok []
  | a :: rest =>
    if a.status = "cancelled" then filterAppts from_dt to_dt patient_name provider rest
    else
      match parseDT a.date_time with
      | .error e => .error e
      | .ok t =>
        match filterAppts from_dt to_dt patient_name provider rest with
        | .error e => .error e
        | .ok rs =>
          if ¬ (from_dt ≤ t ∧ t ≤ to_dt) then .ok rs
          else if ¬ filterPass patient_name a.patient_name then .ok rs
          else if ¬ filterPass provider a.provider then .ok rs
          else .ok (a :: rs)

/-- The Boolean predicate an appointment must satisfy to be kept by the
filtering loop (used to state what `filterAppts` computes). -/
def keepB (from_dt to_dt : Nat) (patient_name provider : Option String) (a : Appt) : Bool :=
  a.status ≠ "cancelled" &&
  (match parseDT a.date_time with
   | .ok t => decide (from_dt ≤ t) && decide (t ≤ to_dt)
   | .error _ => false) &&
  filterPass patient_name a.patient_name &&
  filterPass provider a.provider

/-- Sort key order of `results.sort(key=lambda x: x["datetime"])`:
code-point lexicographic order on the raw datetime strings. -/
def dtle (a b : Appt) : Prop := strLeL a.date_time.data b.date_time.data = true

instance : DecidableRel dtle := fun a b =>
  inferInstanceAs (Decidable (strLeL a.date_time.data b.date_time.data = true))

instance : IsTotal Appt dtle :=
  ⟨fun a b => by
    have H : ∀ x y : List Char, strLeL x y = true ∨ strLeL y x = true := by
      intro x
      induction x with
      | nil => intro y; left; rfl
      | cons c cs ih =>
        intro y
        cases y with
        | nil => right; rfl
        | cons d ds =>
          by_cases hcd : c.toNat < d.toNat
          · left; simp [strLeL, hcd]
          · by_cases hdc : d.toNat < c.toNat
            · right; simp [strLeL, hdc]
            · rcases ih ds with h | h
              · left; simp [strLeL, hcd, hdc, h]
              · right; simp [strLeL, hcd, hdc, h]
    exact H a.date_time.data b.date_time.data⟩

instance : IsTrans Appt dtle :=
  ⟨fun a b c => by
    have H : ∀ x y z : List Char,
        strLeL x y = true → strLeL y z = true → strLeL x z = true := by
      intro x
      induction x with
      | nil => intro y z _ _; rfl
      | cons u us ih =>
        intro y z hxy hyz
        cases y with
        | nil => simp [strLeL] at hxy
        | cons v vs =>
          cases z with
          | nil => simp [strLeL] at hyz
          | cons w ws =>
            simp only [strLeL] at hxy hyz ⊢
            have h1 : ¬ v.toNat < u.toNat := by
              intro hlt
              have hx : ¬ u.toNat < v.toNat := by omega
              simp [hx, hlt] at hxy
            have h2 : ¬ w.toNat < v.toNat := by
              intro hlt
              have hy : ¬ v.toNat < w.toNat := by omega
              simp [hy, hlt] at hyz
            by_cases huw : u.toNat < w.toNat
            · simp [huw]
            · have hwu : ¬ w.toNat < u.toNat := by omega
              have huv : ¬ u.toNat < v.toNat := by omega
              have hvw : ¬ v.toNat < w.toNat := by omega
              simp [huv, h1] at hxy
              simp [hvw, h2] at hyz
              simp [huw, hwu]
              exact ih vs ws hxy hyz
    exact H a.date_time.data b.date_time.data c.date_time.data⟩

/-- `list_appointments` (demo mode): resolve the window, filter the
store, and return the kept entries sorted (stably) by their datetime
string.  Python's stable `list.sort` is modelled by insertion sort,
which computes the same list. -/
def list_appointments (now : Nat) (date_from date_to patient_name provider : Option String)
    (s : ApptStore) : Except String (List Appt) :=
  match resolveFrom now date_from with
  | .error e => .error e
  | .ok from_dt =>
    match resolveTo from_dt date_to with
    | .error e => .error e
    | .ok to_dt =>
      match filterAppts from_dt to_dt patient_name provider s with
      | .error e => .error e
      | .ok results => .ok (List.insertionSort dtle results)

/-! ## `check_availability` (demo mode) -/

/-- `any(abs((current - b).total_seconds()) < duration_minutes * 60 for b
in booked_start_times)`, with `d60 = duration_minutes * 60`. -/
def conflictB (booked : List Nat) (d60 : Nat) (current : Nat) : Bool :=
  booked.any (fun b => secDist current b < d60)

/-- The candidate loop of `check_availability`:
`while current + timedelta(minutes=duration) <= to_dt`, appending
non-conflicting candidates and stepping by 30 minutes. -/
def slotLoop (to_dt d60 : Nat) (booked : List Nat) (current : Nat) : List Nat :=
  if _h : current + d60 ≤ to_dt then
    (if conflictB booked d60 current then [] else [current]) ++
      slotLoop to_dt d60 booked (current + 1800)
  else []
termination_by to_dt + 1 - current
decreasing_by omega

/-- Fuel-indexed form of `slotLoop`, used to compute with it (the
while-loop itself is defined by well-founded recursion). -/
def slotIter (to_dt d60 : Nat) (booked : List Nat) (current : Nat) : Nat → List Nat
  | 0 => []
  | n + 1 =>
    if current + d60 ≤ to_dt then
      (if conflictB booked d60 current then [] else [current]) ++
        slotIter to_dt d60 booked (current + 1800) n
    else []

/-- Parse every booked appointment's start time, in order
(`booked_start_times.append(_parse_dt(appt["datetime"]))`). -/
def parseAll : List Appt → Except String (List Nat)
  | [] => .ok []
  | a :: rest =>
    match parseDT a.date_time with
    | .error e => .error e
    | .ok t =>
      match parseAll rest with
      | .error e => .error e
      | .ok ts => .ok (t :: ts)

/-- `check_availability(date, provider, duration_minutes)` (demo mode):
working window 08:00-17:00 on `date`, booked start times from
`list_appointments` over the whole day for that provider, candidates at
a 30-minute stride rendered back through `strftime`. -/
def check_availability (now : Nat) (date provider : String) (duration_minutes : Nat)
    (s : ApptStore) : Except String (List String) :=
  match parseDT (date ++ "T08:00") with
  | .error e => .error e
  | .ok from_dt =>
    match parseDT (date ++ "T17:00") with
    | .error e => .error e
    | .ok to_dt =>
      match list_appointments now (some (date ++ "T00:00")) (some (date ++ "T23:59"))
          none (some provider) s with
      | .error e => .error e
      | .ok appts =>
        match parseAll appts with
        | .error e => .error e
        | .ok booked =>
          .ok ((slotLoop to_dt (duration_minutes * 60) booked from_dt).map formatDT)

/-! ## `book_appointment`, `cancel_appointment`, `reschedule_appointment`
(demo mode)

`book_appointment` draws `str(uuid.uuid4())[:6]`; the drawn prefix is an
explicit `uuid6` argument here.  `cancel`/`reschedule` raise
`ValueError` on an unknown id; each returns its `Except` result paired
with the store after the call. -/

/-- `book_appointment`: build the record with a fresh id and status
`"scheduled"`, store it, and return it.  No conflict check is made. -/
def book_appointment (patient_id patient_name provider appointment_datetime reason : String)
    (duration_minutes : Int) (uuid6 : String) (s : ApptStore) : Appt × ApptStore :=
  let appt_id := "APT" ++ (pyUpper uuid6)
  let appt : Appt :=
    { appointment_id := appt_id
      patient_id := patient_id
      patient_name := patient_name
      provider := provider
      date_time := appointment_datetime
      duration_minutes := duration_minutes
      reason := reason
      status := "scheduled" }
  (appt, storeInsert appt s)

/-- `cancel_appointment`: look up `appointment_id.upper()`; raise when
absent, otherwise set the entry's status to `"cancelled"` in place and
return it. -/
def cancel_appointment (appointment_id : String) (s : ApptStore) :
    Except String Appt × ApptStore :=
  match storeGet s (pyUpper appointment_id) with
  | none => (.error ("Appointment " ++ appointment_id ++ " not found"), s)
  | some a =>
    (.ok { a with status := "cancelled" },
     storeUpdate (pyUpper appointment_id) (fun b => { b with status := "cancelled" }) s)

/-- `reschedule_appointment`: look up `appointment_id.upper()`; raise
when absent, otherwise replace the entry's datetime in place and return
it. -/
def reschedule_appointment (appointment_id new_datetime : String) (s : ApptStore) :
    Except String Appt × ApptStore :=
  match storeGet s (pyUpper appointment_id) with
  | none => (.error ("Appointment " ++ appointment_id ++ " not found"), s)
  | some a =>
    (.ok { a with date_time := new_datetime },
     storeUpdate (pyUpper appointment_id) (fun b => { b with date_time := new_datetime }) s)

/-! ## Intent model and the orchestration pipeline (`agent_router.py`)

The LLM calls are opaque oracles; each node takes the oracle outcome
(`Except.error` = the call raised, carrying `str(e)`) as an explicit
argument.  A JSON object parsed from the classifier output is modelled
by `IntentJson`, whose fields are optional because `json.loads` performs
no schema validation; a reply that parses as JSON but not as an object
behaves like a parse failure (the subsequent attribute access raises
inside the same `try`), so it is folded into `jsonLoads`'s error case. -/

/-- The seven values of the `IntentType` enumeration. -/
inductive IntentType
  | SCHEDULE_APPOINTMENT
  | CANCEL_APPOINTMENT
  | RESCHEDULE_APPOINTMENT
  | CHECK_APPOINTMENTS
  | PATIENT_LOOKUP
  | GENERAL_QUERY
  | UNKNOWN
deriving Repr, DecidableEq

/-- The string value of an `IntentType` member. -/
def IntentType.value : IntentType → String
  | .SCHEDULE_APPOINTMENT => "schedule_appointment"
  | .CANCEL_APPOINTMENT => "cancel_appointment"
  | .RESCHEDULE_APPOINTMENT => "reschedule_appointment"
  | .CHECK_APPOINTMENTS => "check_appointments"
  | .PATIENT_LOOKUP => "patient_lookup"
  | .GENERAL_QUERY => "general_query"
  | .UNKNOWN => "unknown"

/-- A JSON object as returned by `json.loads` for the classifier reply:
every Intent field may be absent (no validation is performed on it). -/
structure IntentJson where
  type? : Option String
  confidence? : Option ℚ
  entities? : Option (List (String × String))
  summary? : Option String
deriving Repr, DecidableEq

/-- One conversation turn (`{"role": ..., "text": ...}`). -/
structure Turn where
  role : String
  text : String
deriving Repr, DecidableEq

/-- The LangGraph `RouterState` threaded through the pipeline. -/
structure RouterState where
  session_id : String
  user_text : String
  intent : Option IntentJson
  conversation_history : List Turn
  agent_response : String
  final_response : String
  goal_achieved : Bool
  error : Option String
deriving Repr, DecidableEq

/-- The deterministic fallback intent built by `detect_intent`'s
`except` handler. -/
def fallbackIntent (text : String) : IntentJson :=
  { type? := some "general_query"
    confidence? := some (3 / 10)
    entities? := some []
    summary? := some text }

/-- The code-fence stripping in `detect_intent`:
`raw.split("\x60\x60\x60")[1]`, drop a leading `json`, strip. -/
def stripFences (raw : String) : String :=
  if pyStartsWith raw "```" then
    let r := ((pySplit raw "```").get? 1).getD ""
    let r := if pyStartsWith r "json" then pyDropChars 4 r else r
    pyStrip r
  else raw

/-- `detect_intent`: classify via the oracle and parse its reply.  The
whole body runs inside one `try`: an oracle failure or a JSON parse
failure lands in the handler, which installs `fallbackIntent` and
records `str(e)`; a successfully parsed object is stored as the intent
unchanged, with `error` cleared.  `jsonLoads` stands for the library
function `json.loads` restricted to this call. -/
def detect_intent (st : RouterState) (oracle : Except String String)
    (jsonLoads : String → Except String IntentJson) : RouterState :=
  match oracle with
  | .error e => { st with intent := some (fallbackIntent st.user_text), error := some e }
  | .ok content =>
    match jsonLoads (stripFences (pyStrip content)) with
    | .error e => { st with intent := some (fallbackIntent st.user_text), error := some e }
    | .ok j => { st with intent := some j, error := none }

/-- `APPOINTMENT_INTENTS` (the router's set literal). -/
def APPOINTMENT_INTENTS : List IntentType :=
  [.SCHEDULE_APPOINTMENT, .CANCEL_APPOINTMENT, .RESCHEDULE_APPOINTMENT, .CHECK_APPOINTMENTS]

/-- `state.get("intent", \x7b\x7d).get("type", "unknown")`. -/
def intentTypeOr (default : String) (st : RouterState) : String :=
  match st.intent with
  | none => default
  | some j => j.type?.getD default

/-- `route_to_agent`: the conditional edge choosing the next node. -/
def route_to_agent (st : RouterState) : String :=
  let intent_type := intentTypeOr "unknown" st
  if (APPOINTMENT_INTENTS.map IntentType.value).contains intent_type then "appointment_agent"
  else if intent_type = IntentType.PATIENT_LOOKUP.value then "appointment_agent"
  else "general_response"

/-- The fixed apology installed by `general_response_node`'s handler. -/
def genApologyMsg : String :=
  "I\x27m sorry, I encountered an issue processing your request. Please try again."

/-- The fixed technical-failure message of `finalize_response`. -/
def techFailureMsg : String :=
  "I\x27m sorry, I encountered a technical issue and couldn\x27t complete your request. " ++
  "Please try again or contact support if the problem persists."

/-- `appointment_agent_node`: on success store the agent's reply and set
`goal_achieved`; on an unhandled error clear the response, clear the
goal flag and record `str(e)`. -/
def appointment_agent_node (outcome : Except String String) (st : RouterState) : RouterState :=
  match outcome with
  | .ok response => { st with agent_response := response, goal_achieved := true }
  | .error e => { st with agent_response := "", goal_achieved := false, error := some e }

/-- `general_response_node`: on success store the reply and set
`goal_achieved`; on an unhandled error store the fixed apology, clear
the goal flag and record `str(e)`. -/
def general_response_node (outcome : Except String String) (st : RouterState) : RouterState :=
  match outcome with
  | .ok content => { st with agent_response := content, goal_achieved := true }
  | .error e =>
    { st with agent_response := genApologyMsg, goal_achieved := false, error := some e }

/-- The `closings` mapping of `finalize_response`. -/
def closings : List (String × String) :=
  [("schedule_appointment", " Is there anything else I can help you with?"),
   ("cancel_appointment", " The appointment has been cancelled. Is there anything else?"),
   ("reschedule_appointment", " The appointment has been rescheduled. Is there anything else?"),
   ("check_appointments", " Let me know if you need more details."),
   ("patient_lookup", " Let me know if you need anything else.")]

/-- `closings.get(intent_type, "")`. -/
def closingFor (intent_type : String) : String :=
  match closings.find? (fun p => p.1 = intent_type) with
  | some p => p.2
  | none => ""

/-- `finalize_response`: emit the fixed technical-failure message when an
error is recorded (truthy) and no response text exists; otherwise, when
the goal was achieved and the response is non-empty, append the
intent-specific closing to the stripped response unless it already ends
with a question mark. -/
def finalize_response (st : RouterState) : RouterState :=
  let agent_resp := st.agent_response
  if pyTruthy st.error ∧ agent_resp = "" then
    { st with final_response := techFailureMsg, goal_achieved := false }
  else
    let agent_resp :=
      if st.goal_achieved ∧ agent_resp ≠ "" then
        let closing := closingFor (intentTypeOr "" st)
        if pyStrip agent_resp ≠ "" ∧ ¬ pyEndsWith (pyStrip agent_resp) "?" then
          pyStrip agent_resp ++ closing
        else agent_resp
      else agent_resp
    { st with final_response := agent_resp }

/-- The response text `process_request` hands back for TTS:
`result.get("final_response") or result.get("agent_response", ...)`
(both keys are always present in the state). -/
def userFacingText (st : RouterState) : String :=
  pyOr st.final_response st.agent_response

/-! ## Session history (`process_request`) -/

/-- The history mutation one `process_request` call performs after the
pipeline returns: append the user turn and the assistant turn, then trim
the stored list to its last 20 entries when it exceeds 20. -/
def updateHistory (hist : List Turn) (user_text final_response : String) : List Turn :=
  let h := hist ++ [⟨"user", user_text⟩, ⟨"assistant", final_response⟩]
  if h.length > 20 then h.drop (h.length - 20) else h

/-- Stored history of a fresh session after a sequence of completed
exchanges, each given as (user text, final response). -/
def runSession (exchanges : List (String × String)) : List Turn :=
  exchanges.foldl (fun h e => updateHistory h e.1 e.2) []

/-- All turns of a sequence of exchanges, oldest first, unbounded. -/
def allTurns (exchanges : List (String × String)) : List Turn :=
  exchanges.flatMap (fun e => [⟨"user", e.1⟩, ⟨"assistant", e.2⟩])

/-- The suffix of the most recent `n` entries (`l[-n:]`). -/
def lastN (n : Nat) (l : List Turn) : List Turn :=
  l.drop (l.length - n)

/-! ## Concrete data used by witnesses and counterexamples -/

/-- Concrete sample appointment used by witnesses. -/
def wAppt : Appt :=
  ⟨"APT001", "P1A2B3", "Alice Johnson", "Dr. Smith", "2025-06-01T09:00", 30,
   "Annual checkup", "scheduled"⟩

/-- A concrete pipeline state used by witnesses and counterexamples. -/
def stBase : RouterState :=
  ⟨"s1", "book me with Dr. Smith", none, [], "", "", false, none⟩

/-- A concrete stand-in for `json.loads` that behaves as the library
does on the probed inputs: `"\x7b\x7d"` parses to the empty JSON
object; everything else raises. -/
def loadsEmptyObj : String → Except String IntentJson :=
  fun s =>
    if s = "\x7b\x7d" then .ok ⟨none, none, none, none⟩
    else .error "Expecting value: line 1 column 1 (char 0)"

/-- First appointment of the C6 counterexample store (canonical
datetime format, start 09:00). -/
def cexA : Appt :=
  ⟨"APT101", "P1", "Alice Johnson", "Dr. X", "2025-06-01T09:00", 30, "r", "scheduled"⟩

/-- Second appointment of the C6 counterexample store (space-separated
datetime format — also accepted by `_parse_dt` — start 10:00). -/
def cexB : Appt :=
  ⟨"APT102", "P2", "Bob Williams", "Dr. X", "2025-06-01 10:00", 30, "r", "scheduled"⟩

/-- Computation form of `check_availability`: the while-loop replaced by
its fuel-indexed equivalent (enough fuel that the guard, not the fuel,
terminates the loop).  Used to evaluate concrete calls. -/
def check_availability_run (now : Nat) (date provider : String) (duration_minutes : Nat)
    (s : ApptStore) : Except String (List String) :=
  match parseDT (date ++ "T08:00") with
  | .error e => .error e
  | .ok from_dt =>
    match parseDT (date ++ "T17:00") with
    | .error e => .error e
    | .ok to_dt =>
      match list_appointments now (some (date ++ "T00:00")) (some (date ++ "T23:59"))
          none (some provider) s with
      | .error e => .error e
      | .ok appts =>
        match parseAll appts with
        | .error e => .error e
        | .ok booked =>
          .ok ((slotIter to_dt (duration_minutes * 60) booked from_dt (to_dt + 1)).map
            formatDT)

/-- The slot list `check_availability` returns on the witness store:
every half-hour stride time except the booked 09:00. -/
def wSlots : List String :=
  ["2025-06-01T08:00", "2025-06-01T08:30", "2025-06-01T09:30", "2025-06-01T10:00",
   "2025-06-01T10:30", "2025-06-01T11:00", "2025-06-01T11:30", "2025-06-01T12:00",
   "2025-06-01T12:30", "2025-06-01T13:00", "2025-06-01T13:30", "2025-06-01T14:00",
   "2025-06-01T14:30", "2025-06-01T15:00", "2025-06-01T15:30", "2025-06-01T16:00",
   "2025-06-01T16:30"]


/-! ## Store lemmas -/

theorem storeGet_cons (b : Appt) (s : List Appt) (k : String) :
    storeGet (b :: s) k = if b.appointment_id = k then some b else storeGet s k := by
  by_cases h : b.appointment_id = k
  · simp [storeGet, List.find?_cons_of_pos, h]
  · simp [storeGet, List.find?_cons_of_neg, h]

theorem storeGet_storeUpdate_self (k : String) (f : Appt → Appt)
    (hid : ∀ b, (f b).appointment_id = b.appointment_id) :
    ∀ (s : ApptStore) (a : Appt), storeGet s k = some a →
      storeGet (storeUpdate k f s) k = some (f a) := by
  intro s
  induction s with
  | nil => intro a h; simp [storeGet] at h
  | cons b s ih =>
    intro a h
    rw [storeGet_cons] at h
    by_cases hb : b.appointment_id = k
    · simp [hb] at h
      subst h
      simp [storeUpdate, hb, storeGet_cons, hid]
    · simp [hb] at h
      simp [storeUpdate, hb, storeGet_cons, ih a h]

theorem storeGet_storeUpdate_ne (k k2 : String) (f : Appt → Appt)
    (hid : ∀ b, (f b).appointment_id = b.appointment_id) (hne : k2 ≠ k) :
    ∀ s : ApptStore, storeGet (storeUpdate k f s) k2 = storeGet s k2 := by
  intro s
  induction s with
  | nil => rfl
  | cons b s ih =>
    by_cases hb : b.appointment_id = k
    · have h1 : (f b).appointment_id ≠ k2 := by
        rw [hid, hb]; exact fun h => hne h.symm
      have h2 : b.appointment_id ≠ k2 := by
        rw [hb]; exact fun h => hne h.symm
      rw [storeUpdate, if_pos hb]
      rw [storeGet_cons, storeGet_cons]
      simp [h1, h2]
    · rw [storeUpdate, if_neg hb]
      rw [storeGet_cons, storeGet_cons, ih]

theorem storeUpdate_eq_self (k : String) (f : Appt → Appt) :
    ∀ (s : ApptStore) (a : Appt), storeGet s k = some a → f a = a →
      storeUpdate k f s = s := by
  intro s
  induction s with
  | nil => intro a h; simp [storeGet] at h
  | cons b s ih =>
    intro a h hf
    rw [storeGet_cons] at h
    by_cases hb : b.appointment_id = k
    · simp [hb] at h
      subst h
      simp [storeUpdate, hb, hf]
    · simp [hb] at h
      simp [storeUpdate, hb, ih a h hf]

theorem storeGet_storeInsert_self (a : Appt) :
    ∀ s : ApptStore, storeGet (storeInsert a s) a.appointment_id = some a := by
  intro s
  induction s with
  | nil => simp [storeInsert, storeGet_cons]
  | cons b s ih =>
    by_cases hb : b.appointment_id = a.appointment_id
    · simp [storeInsert, hb, storeGet_cons]
    · simp [storeInsert, hb, storeGet_cons, ih]

theorem storeGet_storeInsert_ne (a : Appt) (k : String) (hne : k ≠ a.appointment_id) :
    ∀ s : ApptStore, storeGet (storeInsert a s) k = storeGet s k := by
  intro s
  have ha : a.appointment_id ≠ k := fun h => hne h.symm
  induction s with
  | nil =>
    show storeGet [a] k = storeGet [] k
    rw [storeGet_cons]
    simp [ha]
  | cons b s ih =>
    by_cases hb : b.appointment_id = a.appointment_id
    · have hbk : b.appointment_id ≠ k := by
        rw [hb]; exact ha
      rw [storeInsert, if_pos hb]
      rw [storeGet_cons, storeGet_cons]
      simp [ha, hbk]
    · rw [storeInsert, if_neg hb]
      rw [storeGet_cons, storeGet_cons, ih]

/-! ## Claims C4, C10, C7 -/

/-- Claim C4: for an appointment id absent from the store (under the
case-insensitive uppercase lookup) both `cancel_appointment` and
`reschedule_appointment` fail with a not-found error and leave the store
unchanged; for a present id, cancel sets the status to `"cancelled"` and
reschedule replaces the start datetime, each returning the updated
record, which is stored at the same key while every other key is
untouched. -/
theorem cancel_reschedule_spec :
    (∀ (id newdt : String) (s : ApptStore), storeGet s (pyUpper id) = none →
      cancel_appointment id s = (.error ("Appointment " ++ id ++ " not found"), s) ∧
      reschedule_appointment id newdt s =
        (.error ("Appointment " ++ id ++ " not found"), s)) ∧
    (∀ (id newdt : String) (s : ApptStore) (a : Appt), storeGet s (pyUpper id) = some a →
      (cancel_appointment id s).1 = .ok { a with status := "cancelled" } ∧
      storeGet (cancel_appointment id s).2 (pyUpper id) = some { a with status := "cancelled" } ∧
      (∀ k, k ≠ (pyUpper id) → storeGet (cancel_appointment id s).2 k = storeGet s k) ∧
      (reschedule_appointment id newdt s).1 = .ok { a with date_time := newdt } ∧
      storeGet (reschedule_appointment id newdt s).2 (pyUpper id) =
        some { a with date_time := newdt } ∧
      (∀ k, k ≠ (pyUpper id) →
        storeGet (reschedule_appointment id newdt s).2 k = storeGet s k)) := by
  constructor
  · intro id newdt s h
    constructor
    · simp only [cancel_appointment, h]
    · simp only [reschedule_appointment, h]
  · intro id newdt s a h
    refine ⟨?_, ?_, ?_, ?_, ?_, ?_⟩
    · simp only [cancel_appointment, h]
    · simp only [cancel_appointment, h]
      exact storeGet_storeUpdate_self (pyUpper id)
        (fun b => { b with status := "cancelled" }) (fun b => rfl) s a h
    · intro k hk
      simp only [cancel_appointment, h]
      exact storeGet_storeUpdate_ne (pyUpper id) k
        (fun b => { b with status := "cancelled" }) (fun b => rfl) hk s
    · simp only [reschedule_appointment, h]
    · simp only [reschedule_appointment, h]
      exact storeGet_storeUpdate_self (pyUpper id)
        (fun b => { b with date_time := newdt }) (fun b => rfl) s a h
    · intro k hk
      simp only [reschedule_appointment, h]
      exact storeGet_storeUpdate_ne (pyUpper id) k
        (fun b => { b with date_time := newdt }) (fun b => rfl) hk s

/-- Witness for C4 at a concrete store: `"APTX"` is absent, `"apt001"`
resolves case-insensitively to the stored `"APT001"`. -/
theorem cancel_reschedule_spec_witness :
    cancel_appointment "APTX" [wAppt] =
      (.error "Appointment APTX not found", [wAppt]) ∧
    (cancel_appointment "apt001" [wAppt]).1 =
      .ok { wAppt with status := "cancelled" } := by
  constructor
  · exact (cancel_reschedule_spec.1 "APTX" "2025-06-02T10:00" [wAppt] (by decide)).1
  · exact (cancel_reschedule_spec.2 "apt001" "2025-06-02T10:00" [wAppt] wAppt (by decide)).1

/-- Claim C10: cancelling an id that is present is idempotent — a second
`cancel_appointment` on the store produced by the first succeeds, again
returns the record with status `"cancelled"`, and leaves the store
exactly as the first call left it. -/
theorem cancel_appointment_idempotent :
    ∀ (id : String) (s : ApptStore) (a : Appt), storeGet s (pyUpper id) = some a →
      cancel_appointment id (cancel_appointment id s).2 =
        (.ok { a with status := "cancelled" }, (cancel_appointment id s).2) := by
  intro id s a h
  have h1 : (cancel_appointment id s).2 =
      storeUpdate (pyUpper id) (fun b => { b with status := "cancelled" }) s := by
    simp only [cancel_appointment, h]
  have h2 : storeGet (cancel_appointment id s).2 (pyUpper id) =
      some { a with status := "cancelled" } := by
    rw [h1]
    exact storeGet_storeUpdate_self (pyUpper id)
      (fun b => { b with status := "cancelled" }) (fun b => rfl) s a h
  generalize hS : (cancel_appointment id s).2 = s1 at h2 ⊢
  simp only [cancel_appointment, h2]
  refine Prod.ext ?_ ?_
  · rfl
  · exact storeUpdate_eq_self (pyUpper id)
      (fun b => { b with status := "cancelled" }) s1
      { a with status := "cancelled" } h2 rfl

/-- Witness for C10 at a concrete one-entry store. -/
theorem cancel_appointment_idempotent_witness :
    cancel_appointment "APT001" (cancel_appointment "APT001" [wAppt]).2 =
      (.ok { wAppt with status := "cancelled" }, (cancel_appointment "APT001" [wAppt]).2) :=
  cancel_appointment_idempotent "APT001" [wAppt] wAppt (by decide)

/-- Cancelling the shared `"APT"` prefix in generated appointment ids. -/
theorem apt_prefix_cancel {u v : String} (h : ("APT" ++ u : String) = "APT" ++ v) :
    u = v := by
  have hd : ("APT" ++ u).data = ("APT" ++ v).data := congrArg String.data h
  rw [String.data_append, String.data_append] at hd
  exact String.ext (List.append_cancel_left hd)

/-- Claim C7: two sequential `book_appointment` calls with identical
provider and start time both succeed — no conflict check exists at this
layer — each producing a `"scheduled"` appointment carrying that
provider and start time; when the two drawn uuid prefixes differ after
uppercasing, the resulting ids differ and both records are in the final
store. -/
theorem book_appointment_double_booking :
    ∀ (pid pname prov dtstr reason : String) (dur : Int) (u1 u2 : String) (s : ApptStore),
      (pyUpper u1) ≠ (pyUpper u2) →
      ((book_appointment pid pname prov dtstr reason dur u1 s).1.status = "scheduled" ∧
       (book_appointment pid pname prov dtstr reason dur u1 s).1.provider = prov ∧
       (book_appointment pid pname prov dtstr reason dur u1 s).1.date_time = dtstr) ∧
      ((book_appointment pid pname prov dtstr reason dur u2
          (book_appointment pid pname prov dtstr reason dur u1 s).2).1.status = "scheduled" ∧
       (book_appointment pid pname prov dtstr reason dur u2
          (book_appointment pid pname prov dtstr reason dur u1 s).2).1.provider = prov ∧
       (book_appointment pid pname prov dtstr reason dur u2
          (book_appointment pid pname prov dtstr reason dur u1 s).2).1.date_time = dtstr) ∧
      (book_appointment pid pname prov dtstr reason dur u1 s).1.appointment_id ≠
        (book_appointment pid pname prov dtstr reason dur u2
          (book_appointment pid pname prov dtstr reason dur u1 s).2).1.appointment_id ∧
      storeGet (book_appointment pid pname prov dtstr reason dur u2
          (book_appointment pid pname prov dtstr reason dur u1 s).2).2
          ("APT" ++ (pyUpper u1)) =
        some (book_appointment pid pname prov dtstr reason dur u1 s).1 ∧
      storeGet (book_appointment pid pname prov dtstr reason dur u2
          (book_appointment pid pname prov dtstr reason dur u1 s).2).2
          ("APT" ++ (pyUpper u2)) =
        some (book_appointment pid pname prov dtstr reason dur u2
          (book_appointment pid pname prov dtstr reason dur u1 s).2).1 := by
  intro pid pname prov dtstr reason dur u1 u2 s hu
  have hne : ("APT" ++ (pyUpper u1) : String) ≠ "APT" ++ (pyUpper u2) :=
    fun h => hu (apt_prefix_cancel h)
  refine ⟨⟨rfl, rfl, rfl⟩, ⟨rfl, rfl, rfl⟩, hne, ?_, ?_⟩
  · show storeGet (storeInsert _ (storeInsert _ s)) _ = _
    rw [storeGet_storeInsert_ne _ _ hne]
    exact storeGet_storeInsert_self _ s
  · exact storeGet_storeInsert_self _ _

/-- Witness for C7 at concrete arguments. -/
theorem book_appointment_double_booking_witness :
    pyUpper "a1b2c3" ≠ pyUpper "d4e5f6" ∧
    (book_appointment "P1" "Alice" "Dr. Smith" "2025-06-01T09:00" "checkup" 30 "a1b2c3"
        []).1.appointment_id ≠
      (book_appointment "P1" "Alice" "Dr. Smith" "2025-06-01T09:00" "checkup" 30 "d4e5f6"
        (book_appointment "P1" "Alice" "Dr. Smith" "2025-06-01T09:00" "checkup" 30 "a1b2c3"
          []).2).1.appointment_id :=
  ⟨by decide,
   (book_appointment_double_booking "P1" "Alice" "Dr. Smith" "2025-06-01T09:00" "checkup"
      30 "a1b2c3" "d4e5f6" [] (by decide)).2.2.1⟩

/-! ## Claim C2 -/

theorem updateHistory_lastN (L : List Turn) (u a : String) :
    updateHistory (lastN 20 L) u a =
      lastN 20 (L ++ [⟨"user", u⟩, ⟨"assistant", a⟩]) := by
  have hT : ([⟨"user", u⟩, ⟨"assistant", a⟩] : List Turn).length = 2 := rfl
  simp only [updateHistory, lastN, List.length_append, List.length_drop, hT]
  by_cases hn : L.length ≤ 18
  · have h0 : L.length - 20 = 0 := by omega
    rw [h0]
    simp only [List.drop_zero]
    rw [if_neg (by omega)]
    have h1 : L.length + 2 - 20 = 0 := by omega
    rw [h1]
    simp
  · rw [if_pos (by omega)]
    rw [List.drop_append_eq_append_drop, List.drop_append_eq_append_drop,
        List.drop_drop, List.length_drop]
    congr 1
    · congr 1
      omega
    · congr 1
      omega

theorem runSession_eq_lastN (exchanges : List (String × String)) :
    runSession exchanges = lastN 20 (allTurns exchanges) := by
  induction exchanges using List.reverseRecOn with
  | nil => rfl
  | append_singleton ex e ih =>
    have h1 : runSession (ex ++ [e]) = updateHistory (runSession ex) e.1 e.2 := by
      simp [runSession, List.foldl_append]
    have h2 : allTurns (ex ++ [e]) =
        allTurns ex ++ [⟨"user", e.1⟩, ⟨"assistant", e.2⟩] := by
      simp [allTurns]
    rw [h1, ih, h2, updateHistory_lastN]

theorem allTurns_length (exchanges : List (String × String)) :
    (allTurns exchanges).length = 2 * exchanges.length := by
  induction exchanges with
  | nil => rfl
  | cons e ex ih =>
    have h : allTurns (e :: ex) = ⟨"user", e.1⟩ :: ⟨"assistant", e.2⟩ :: allTurns ex := by
      simp [allTurns]
    rw [h, List.length_cons, List.length_cons, ih, List.length_cons]
    omega

/-- Claim C2: in a fresh session, after `N ≥ 11` completed exchanges
through `process_request` (each appending one user and one assistant
turn, then trimming the stored list to its last 20 entries) the stored
history has length exactly 20 and equals the suffix of the most recent
20 turns of the full conversation, in original order. -/
theorem history_bound (exchanges : List (String × String))
    (h : 11 ≤ exchanges.length) :
    (runSession exchanges).length = 20 ∧
    runSession exchanges = lastN 20 (allTurns exchanges) ∧
    allTurns exchanges =
      (allTurns exchanges).take ((allTurns exchanges).length - 20) ++
        runSession exchanges := by
  have he := runSession_eq_lastN exchanges
  have hl := allTurns_length exchanges
  refine ⟨?_, he, ?_⟩
  · rw [he]
    simp only [lastN, List.length_drop]
    omega
  · rw [he]
    simp only [lastN]
    exact (List.take_append_drop _ _).symm

/-- Witness for C2: 11 concrete exchanges yield exactly the last 20
turns. -/
theorem history_bound_witness :
    11 ≤ ([("u1", "a1"), ("u2", "a2"), ("u3", "a3"), ("u4", "a4"), ("u5", "a5"),
           ("u6", "a6"), ("u7", "a7"), ("u8", "a8"), ("u9", "a9"), ("u10", "a10"),
           ("u11", "a11")] : List (String × String)).length ∧
    (runSession [("u1", "a1"), ("u2", "a2"), ("u3", "a3"), ("u4", "a4"), ("u5", "a5"),
      ("u6", "a6"), ("u7", "a7"), ("u8", "a8"), ("u9", "a9"), ("u10", "a10"),
      ("u11", "a11")]).length = 20 :=
  ⟨by decide,
   (history_bound [("u1", "a1"), ("u2", "a2"), ("u3", "a3"), ("u4", "a4"), ("u5", "a5"),
      ("u6", "a6"), ("u7", "a7"), ("u8", "a8"), ("u9", "a9"), ("u10", "a10"),
      ("u11", "a11")] (by decide)).1⟩

/-! ## Claims C3, C9, C5, C8 -/

/-- Counterexample to claim C3: when the oracle returns `"\x7b\x7d"` —
valid JSON with every required Intent field missing — `detect_intent`
returns that object unchanged with `error` cleared, not the fallback
intent: the code performs no required-field validation. -/
theorem detect_intent_no_field_validation :
    detect_intent stBase (.ok "\x7b\x7d") loadsEmptyObj =
      { stBase with intent := some ⟨none, none, none, none⟩, error := none } ∧
    (⟨none, none, none, none⟩ : IntentJson) ≠ fallbackIntent stBase.user_text ∧
    (⟨none, none, none, none⟩ : IntentJson).type? = none := by
  refine ⟨rfl, ?_, rfl⟩
  decide

/-- Claim C3 as amended: `detect_intent` never raises; it returns the
fallback intent `{type: general_query, confidence: 0.3, entities: {},
summary: user_text}` with the failure reason recorded exactly when the
oracle raises or its (fence-stripped) reply fails to parse as a JSON
object; a reply that parses is stored as the intent unchanged — even
with required fields missing — and `error` is cleared. -/
theorem detect_intent_fallback_spec :
    ∀ (st : RouterState) (oracle : Except String String)
      (loads : String → Except String IntentJson),
      (∀ e, oracle = .error e →
        detect_intent st oracle loads =
          { st with intent := some (fallbackIntent st.user_text), error := some e }) ∧
      (∀ s e, oracle = .ok s → loads (stripFences (pyStrip s)) = .error e →
        detect_intent st oracle loads =
          { st with intent := some (fallbackIntent st.user_text), error := some e }) ∧
      (∀ s j, oracle = .ok s → loads (stripFences (pyStrip s)) = .ok j →
        detect_intent st oracle loads = { st with intent := some j, error := none }) := by
  intro st oracle loads
  refine ⟨?_, ?_, ?_⟩
  · intro e he
    subst he
    rfl
  · intro s e hs hl
    subst hs
    simp only [detect_intent, hl]
  · intro s j hs hl
    subst hs
    simp only [detect_intent, hl]

/-- Witness for the amended C3 at a raising oracle. -/
theorem detect_intent_fallback_spec_witness :
    detect_intent stBase (.error "anthropic API timeout") loadsEmptyObj =
      { stBase with intent := some (fallbackIntent stBase.user_text),
                    error := some "anthropic API timeout" } :=
  (detect_intent_fallback_spec stBase (.error "anthropic API timeout")
    loadsEmptyObj).1 "anthropic API timeout" rfl

/-- Claim C9: `route_to_agent` is total — every state routes to exactly
one of the two nodes; the five appointment-flavoured intent types route
to the appointment agent, while `general_query`, `unknown`, a missing
intent, and every other type value route to the generic responder. -/
theorem route_to_agent_total :
    (∀ st : RouterState,
      route_to_agent st = "appointment_agent" ∨ route_to_agent st = "general_response") ∧
    (∀ (st : RouterState) (j : IntentJson) (ty : String), st.intent = some j →
      j.type? = some ty →
      (ty ∈ ["schedule_appointment", "cancel_appointment", "reschedule_appointment",
             "check_appointments", "patient_lookup"] →
        route_to_agent st = "appointment_agent") ∧
      (ty ∉ ["schedule_appointment", "cancel_appointment", "reschedule_appointment",
             "check_appointments", "patient_lookup"] →
        route_to_agent st = "general_response")) ∧
    (∀ st : RouterState, st.intent = none → route_to_agent st = "general_response") ∧
    (∀ (st : RouterState) (j : IntentJson), st.intent = some j → j.type? = none →
      route_to_agent st = "general_response") := by
  refine ⟨?_, ?_, ?_, ?_⟩
  · intro st
    simp only [route_to_agent]
    by_cases h1 :
        (APPOINTMENT_INTENTS.map IntentType.value).contains (intentTypeOr "unknown" st) = true
    · left
      rw [if_pos h1]
    · by_cases h2 : intentTypeOr "unknown" st = IntentType.PATIENT_LOOKUP.value
      · left
        rw [if_neg h1, if_pos h2]
      · right
        rw [if_neg h1, if_neg h2]
  · intro st j ty hj hty
    have hto : intentTypeOr "unknown" st = ty := by
      simp [intentTypeOr, hj, hty]
    constructor
    · intro hmem
      rw [route_to_agent, hto]
      fin_cases hmem <;> rfl
    · intro hnm
      simp only [List.mem_cons, List.not_mem_nil, or_false, not_or] at hnm
      obtain ⟨n1, n2, n3, n4, n5⟩ := hnm
      rw [route_to_agent, hto]
      rw [if_neg (by simp [APPOINTMENT_INTENTS, IntentType.value, n1, n2, n3, n4]),
          if_neg (by simp [IntentType.value, n5])]
  · intro st h
    rw [route_to_agent]
    simp [intentTypeOr, h, APPOINTMENT_INTENTS, IntentType.value]
  · intro st j hj hty
    rw [route_to_agent]
    simp [intentTypeOr, hj, hty, APPOINTMENT_INTENTS, IntentType.value]

/-- Witness for C9 on both routes at concrete states. -/
theorem route_to_agent_total_witness :
    route_to_agent { stBase with intent := some ⟨some "cancel_appointment", none, none, none⟩ } =
      "appointment_agent" ∧
    route_to_agent { stBase with intent := some ⟨some "smalltalk", none, none, none⟩ } =
      "general_response" :=
  ⟨((route_to_agent_total.2.1 _ ⟨some "cancel_appointment", none, none, none⟩
      "cancel_appointment" rfl rfl).1 (by decide)),
   ((route_to_agent_total.2.1 _ ⟨some "smalltalk", none, none, none⟩
      "smalltalk" rfl rfl).2 (by decide))⟩

/-- Claim C5: `finalize_response` — when a (non-empty, hence truthy)
error is recorded and the agent response is empty it emits the fixed
technical-failure message and clears the goal flag; otherwise, with the
goal achieved and a response that is non-empty after stripping and does
not end in `"?"`, intent type `schedule_appointment` yields the stripped
response plus the fixed schedule closing clause, an unmapped intent type
yields the stripped response with no clause, and a response already
ending in `"?"` is passed through with no clause appended. -/
theorem finalize_response_spec :
    (∀ st : RouterState, pyTruthy st.error = true → st.agent_response = "" →
      (finalize_response st).final_response = techFailureMsg ∧
      (finalize_response st).goal_achieved = false) ∧
    (∀ st : RouterState, st.goal_achieved = true → pyStrip st.agent_response ≠ "" →
      pyEndsWith (pyStrip st.agent_response) "?" = false →
      intentTypeOr "" st = "schedule_appointment" →
      (finalize_response st).final_response =
        pyStrip st.agent_response ++ " Is there anything else I can help you with?") ∧
    (∀ st : RouterState, st.goal_achieved = true → st.agent_response ≠ "" →
      pyEndsWith (pyStrip st.agent_response) "?" = true →
      (finalize_response st).final_response = st.agent_response) ∧
    (∀ st : RouterState, st.goal_achieved = true → pyStrip st.agent_response ≠ "" →
      pyEndsWith (pyStrip st.agent_response) "?" = false →
      intentTypeOr "" st ∉ ["schedule_appointment", "cancel_appointment",
        "reschedule_appointment", "check_appointments", "patient_lookup"] →
      (finalize_response st).final_response = pyStrip st.agent_response) := by
  have hne : ∀ st : RouterState, pyStrip st.agent_response ≠ "" → st.agent_response ≠ "" := by
    intro st h he
    exact h (by rw [he]; rfl)
  refine ⟨?_, ?_, ?_, ?_⟩
  · intro st h1 h2
    simp only [finalize_response]
    rw [if_pos ⟨h1, h2⟩]
    exact ⟨rfl, rfl⟩
  · intro st hg hs hq hit
    have hr := hne st hs
    simp only [finalize_response]
    rw [if_neg (by intro hc; exact hr hc.2)]
    rw [if_pos ⟨hg, hr⟩, hit]
    rw [if_pos ⟨hs, by simp [hq]⟩]
    rfl
  · intro st hg hr hq
    simp only [finalize_response]
    rw [if_neg (by intro hc; exact hr hc.2)]
    rw [if_pos ⟨hg, hr⟩]
    rw [if_neg (by intro hc; simp [hq] at hc)]
  · intro st hg hs hq hit
    have hr := hne st hs
    simp only [finalize_response]
    rw [if_neg (by intro hc; exact hr hc.2)]
    rw [if_pos ⟨hg, hr⟩]
    rw [if_pos ⟨hs, by simp [hq]⟩]
    have hc : closingFor (intentTypeOr "" st) = "" := by
      simp only [List.mem_cons, List.not_mem_nil, or_false, not_or] at hit
      obtain ⟨n1, n2, n3, n4, n5⟩ := hit
      have m1 : ¬("schedule_appointment" = intentTypeOr "" st) := fun h => n1 h.symm
      have m2 : ¬("cancel_appointment" = intentTypeOr "" st) := fun h => n2 h.symm
      have m3 : ¬("reschedule_appointment" = intentTypeOr "" st) := fun h => n3 h.symm
      have m4 : ¬("check_appointments" = intentTypeOr "" st) := fun h => n4 h.symm
      have m5 : ¬("patient_lookup" = intentTypeOr "" st) := fun h => n5 h.symm
      simp [closingFor, closings, List.find?, m1, m2, m3, m4, m5]
    rw [hc]
    simp

/-- Witness for C5: the schedule closing is appended to a stripped
response, and the technical-failure branch fires on an error with no
response. -/
theorem finalize_response_spec_witness :
    (finalize_response { stBase with
        intent := some ⟨some "schedule_appointment", none, none, none⟩,
        agent_response := "Your appointment is booked. ",
        goal_achieved := true }).final_response =
      "Your appointment is booked. Is there anything else I can help you with?" ∧
    (finalize_response { stBase with error := some "boom" }).final_response =
      techFailureMsg :=
  ⟨by
    have h := finalize_response_spec.2.1
      { stBase with
        intent := some ⟨some "schedule_appointment", none, none, none⟩,
        agent_response := "Your appointment is booked. ",
        goal_achieved := true } rfl (by decide) (by decide) rfl
    rw [h]
    decide,
   (finalize_response_spec.1 { stBase with error := some "boom" } (by decide) rfl).1⟩

/-- Counterexample to claim C8: an unhandled reasoning-loop error whose
`str(e)` is empty (e.g. `raise RuntimeError()`) leaves the user-facing
response empty, not a fixed apology: the recorded empty error string is
falsy, so `finalize_response` skips its technical-failure branch. -/
theorem loop_failure_empty_error_cex :
    userFacingText (finalize_response (appointment_agent_node (.error "") stBase)) = "" ∧
    techFailureMsg ≠ "" ∧ genApologyMsg ≠ "" := by
  refine ⟨rfl, ?_, ?_⟩ <;> decide

/-- Claim C8 as amended: an unhandled error in the generic responder
always yields its fixed apology as the user-facing text, and an
unhandled error in the reasoning loop yields the fixed technical-failure
message whenever `str(e)` is non-empty (an empty `str(e)` yields an
empty response); in every case `goal_achieved` is false and the error
text is recorded in the state rather than shown (the fixed messages do
not depend on it). -/
theorem pipeline_failure_spec :
    ∀ (st : RouterState) (e : String),
      (e ≠ "" →
        userFacingText (finalize_response (appointment_agent_node (.error e) st)) =
          techFailureMsg ∧
        (finalize_response (appointment_agent_node (.error e) st)).goal_achieved = false ∧
        (finalize_response (appointment_agent_node (.error e) st)).error = some e) ∧
      (userFacingText (finalize_response (general_response_node (.error e) st)) =
          genApologyMsg ∧
        (finalize_response (general_response_node (.error e) st)).goal_achieved = false ∧
        (finalize_response (general_response_node (.error e) st)).error = some e) := by
  intro st e
  constructor
  · intro he
    have h1 : appointment_agent_node (.error e) st =
        { st with agent_response := "", goal_achieved := false, error := some e } := rfl
    rw [h1]
    simp only [finalize_response]
    rw [if_pos (show pyTruthy (some e) = true ∧ True from
      ⟨by simp [pyTruthy, he], trivial⟩)]
    exact ⟨rfl, rfl, rfl⟩
  · have h1 : general_response_node (.error e) st =
        { st with agent_response := genApologyMsg, goal_achieved := false,
                  error := some e } := rfl
    rw [h1]
    simp only [finalize_response]
    rw [if_neg (by intro hc; exact absurd hc.2 (by decide))]
    rw [if_neg (by intro hc; exact absurd hc.1 (by simp))]
    refine ⟨?_, rfl, rfl⟩
    show pyOr genApologyMsg genApologyMsg = genApologyMsg
    rw [pyOr, if_neg (by decide)]

/-- Witness for the amended C8 at a concrete non-empty error. -/
theorem pipeline_failure_spec_witness :
    userFacingText (finalize_response (appointment_agent_node (.error "boom") stBase)) =
      techFailureMsg ∧
    userFacingText (finalize_response (general_response_node (.error "boom") stBase)) =
      genApologyMsg :=
  ⟨((pipeline_failure_spec stBase "boom").1 (by decide)).1,
   (pipeline_failure_spec stBase "boom").2.1⟩

/-! ## Claim C6: `list_appointments` -/

theorem filterAppts_ok (from_dt to_dt : Nat) (pn pr : Option String) :
    ∀ (l : List Appt) (kept : List Appt),
      filterAppts from_dt to_dt pn pr l = .ok kept →
      kept = l.filter (keepB from_dt to_dt pn pr) := by
  intro l
  induction l with
  | nil =>
    intro kept h
    simp only [filterAppts] at h
    cases h
    rfl
  | cons a rest ih =>
    intro kept h
    by_cases hc : a.status = "cancelled"
    · rw [filterAppts, if_pos hc] at h
      have hk : keepB from_dt to_dt pn pr a = false := by
        simp [keepB, hc]
      rw [List.filter_cons, hk]
      simpa using ih kept h
    · rw [filterAppts, if_neg hc] at h
      cases hp : parseDT a.date_time with
      | error e => simp only [hp] at h; exact Except.noConfusion h
      | ok t =>
        simp only [hp] at h
        cases hr : filterAppts from_dt to_dt pn pr rest with
        | error e => simp only [hp, hr] at h; exact Except.noConfusion h
        | ok rs =>
          simp only [hr] at h
          have hrs := ih rs hr
          by_cases hw : from_dt ≤ t ∧ t ≤ to_dt
          · rw [if_neg (by simpa using hw)] at h
            by_cases hn : filterPass pn a.patient_name = true
            · rw [if_neg (by simpa using hn)] at h
              by_cases hv : filterPass pr a.provider = true
              · rw [if_neg (by simpa using hv)] at h
                cases h
                have hk : keepB from_dt to_dt pn pr a = true := by
                  simp [keepB, hc, hp, hw.1, hw.2, hn, hv]
                simp [List.filter_cons, hk, hrs]
              · rw [if_pos (by simpa using hv)] at h
                cases h
                have hk : keepB from_dt to_dt pn pr a = false := by
                  simp [keepB, hc, hp, hv]
                simp [List.filter_cons, hk, hrs]
            · rw [if_pos (by simpa using hn)] at h
              cases h
              have hk : keepB from_dt to_dt pn pr a = false := by
                simp [keepB, hc, hp, hn]
              simp [List.filter_cons, hk, hrs]
          · rw [if_pos hw] at h
            cases h
            have hk : keepB from_dt to_dt pn pr a = false := by
              simp only [not_and_or] at hw
              rcases hw with hw | hw <;> simp [keepB, hc, hp, hw]
            simp [List.filter_cons, hk, hrs]

/-- What a successful `list_appointments` call returns: the sorted
filter of the store. -/
theorem list_appointments_ok (now : Nat) (df dt pn pr : Option String) (s : ApptStore)
    (res : List Appt) (h : list_appointments now df dt pn pr s = .ok res) :
    ∃ from_dt to_dt,
      resolveFrom now df = .ok from_dt ∧
      resolveTo from_dt dt = .ok to_dt ∧
      res = List.insertionSort dtle (s.filter (keepB from_dt to_dt pn pr)) := by
  rw [list_appointments] at h
  cases hf : resolveFrom now df with
  | error e => simp only [hf] at h; exact Except.noConfusion h
  | ok from_dt =>
    simp only [hf] at h
    cases ht : resolveTo from_dt dt with
    | error e => simp only [ht] at h; exact Except.noConfusion h
    | ok to_dt =>
      simp only [ht] at h
      cases hfa : filterAppts from_dt to_dt pn pr s with
      | error e => simp only [hfa] at h; exact Except.noConfusion h
      | ok kept =>
        simp only [hfa] at h
        cases h
        exact ⟨from_dt, to_dt, rfl, ht,
          congrArg _ (filterAppts_ok from_dt to_dt pn pr s kept hfa)⟩

/-- The membership conditions `keepB` checks, spelled out. -/
theorem keepB_iff (from_dt to_dt : Nat) (pn pr : Option String) (a : Appt) :
    keepB from_dt to_dt pn pr a = true ↔
      a.status ≠ "cancelled" ∧
      (∃ t, parseDT a.date_time = .ok t ∧ from_dt ≤ t ∧ t ≤ to_dt) ∧
      filterPass pn a.patient_name = true ∧
      filterPass pr a.provider = true := by
  cases hp : parseDT a.date_time with
  | error e =>
    simp [keepB, hp]
  | ok t =>
    simp only [keepB, hp, Bool.and_eq_true, decide_eq_true_eq, ne_eq,
      Bool.not_eq_true']
    constructor
    · rintro ⟨⟨⟨hs, hw⟩, hn⟩, hv⟩
      exact ⟨by simpa using hs, ⟨t, rfl, hw.1, hw.2⟩, hn, hv⟩
    · rintro ⟨hs, ⟨t2, ht2, hw1, hw2⟩, hn, hv⟩
      cases ht2
      exact ⟨⟨⟨by simpa using hs, hw1, hw2⟩, hn⟩, hv⟩

/-- Claim C6 as amended: a successful `list_appointments` call returns
exactly the non-cancelled stored appointments whose parsed start lies in
`[from_dt, to_dt]` (inclusive) and which pass the case-insensitive
substring filters on patient name and provider, sorted ascending by the
raw `datetime` *string* (code-point lexicographic — which coincides with
chronological order only when all stored datetimes share one format);
an omitted `date_from` defaults to the start of the current day and an
omitted `date_to` to seven days after `from_dt`. -/
theorem list_appointments_spec :
    (∀ (now : Nat) (df dt pn pr : Option String) (s : ApptStore) (res : List Appt),
      list_appointments now df dt pn pr s = .ok res →
      ∃ from_dt to_dt,
        resolveFrom now df = .ok from_dt ∧
        resolveTo from_dt dt = .ok to_dt ∧
        res.Perm (s.filter (keepB from_dt to_dt pn pr)) ∧
        List.Sorted dtle res ∧
        (∀ a, a ∈ res ↔ a ∈ s ∧ a.status ≠ "cancelled" ∧
          (∃ t, parseDT a.date_time = .ok t ∧ from_dt ≤ t ∧ t ≤ to_dt) ∧
          filterPass pn a.patient_name = true ∧ filterPass pr a.provider = true)) ∧
    (∀ now : Nat, resolveFrom now none = .ok (86400 * (now / 86400))) ∧
    (∀ from_dt : Nat, resolveTo from_dt none = .ok (from_dt + 7 * 86400)) := by
  refine ⟨?_, fun now => rfl, fun fd => rfl⟩
  intro now df dt pn pr s res h
  obtain ⟨fd, td, hf, ht, heq⟩ := list_appointments_ok now df dt pn pr s res h
  subst heq
  refine ⟨fd, td, hf, ht, List.perm_insertionSort _ _, List.sorted_insertionSort _ _, ?_⟩
  intro a
  rw [List.mem_insertionSort, List.mem_filter, keepB_iff]

/-- Counterexample to claim C6: `results.sort(key=lambda x:
x["datetime"])` sorts by the raw datetime string, so with mixed datetime
formats in the store (`"2025-06-01 10:00"` sorts before
`"2025-06-01T09:00"` because space < `T`), the returned list is not
ascending by start time: the 10:00 appointment precedes the 09:00 one. -/
theorem list_appointments_not_time_sorted :
    list_appointments 0 (some "2025-06-01T00:00") (some "2025-06-01T23:59") none none
      [cexA, cexB] = .ok [cexB, cexA] ∧
    parseDT cexB.date_time = .ok 63910807200 ∧
    parseDT cexA.date_time = .ok 63910803600 ∧
    (63910803600 : Nat) < 63910807200 :=
  ⟨rfl, rfl, rfl, by decide⟩

/-- Witness for the amended C6 on the concrete two-appointment store. -/
theorem list_appointments_spec_witness :
    ∃ from_dt to_dt,
      resolveFrom 0 (some "2025-06-01T00:00") = .ok from_dt ∧
      resolveTo from_dt (some "2025-06-01T23:59") = .ok to_dt ∧
      List.Perm [cexB, cexA]
        (List.filter (keepB from_dt to_dt none none) [cexA, cexB]) ∧
      List.Sorted dtle [cexB, cexA] ∧
      (∀ a, a ∈ [cexB, cexA] ↔ a ∈ [cexA, cexB] ∧ a.status ≠ "cancelled" ∧
        (∃ t, parseDT a.date_time = .ok t ∧ from_dt ≤ t ∧ t ≤ to_dt) ∧
        filterPass none a.patient_name = true ∧ filterPass none a.provider = true) :=
  list_appointments_spec.1 0 (some "2025-06-01T00:00") (some "2025-06-01T23:59")
    none none [cexA, cexB] [cexB, cexA] rfl

/-! ## Claim C1: `check_availability` -/

theorem slotLoop_eq_iter (to_dt d60 : Nat) (bk : List Nat) :
    ∀ (n cur : Nat), to_dt + 1 ≤ cur + 1800 * n →
      slotLoop to_dt d60 bk cur = slotIter to_dt d60 bk cur n := by
  intro n
  induction n with
  | zero =>
    intro cur h
    rw [slotLoop, dif_neg (by omega)]
    rfl
  | succ n ih =>
    intro cur h
    rw [slotLoop, slotIter]
    by_cases hc : cur + d60 ≤ to_dt
    · rw [dif_pos hc, if_pos hc, ih (cur + 1800) (by omega)]
    · rw [dif_neg hc, if_neg hc]

theorem slotIter_mem (to_dt d60 : Nat) (bk : List Nat) :
    ∀ (n cur t : Nat),
      t ∈ slotIter to_dt d60 bk cur n ↔
        ∃ k, k < n ∧ t = cur + 1800 * k ∧ t + d60 ≤ to_dt ∧
          conflictB bk d60 t = false := by
  intro n
  induction n with
  | zero =>
    intro cur t
    simp [slotIter]
  | succ n ih =>
    intro cur t
    rw [slotIter]
    by_cases hc : cur + d60 ≤ to_dt
    · rw [if_pos hc]
      rw [List.mem_append]
      constructor
      · intro hmem
        rcases hmem with ht | ht
        · have hcf : conflictB bk d60 cur = false := by
            by_cases hx : conflictB bk d60 cur = true
            · rw [if_pos hx] at ht; cases ht
            · simpa using hx
          rw [if_neg (by simp [hcf])] at ht
          have hcur : t = cur := by simpa using ht
          subst hcur
          exact ⟨0, Nat.succ_pos n, by omega, by omega, hcf⟩
        · obtain ⟨k, hk, hteq, hle, hcf⟩ := (ih (cur + 1800) t).1 ht
          exact ⟨k + 1, by omega, by omega, hle, hcf⟩
      · rintro ⟨k, hk, hteq, hle, hcf⟩
        cases k with
        | zero =>
          have hcur : t = cur := by omega
          subst hcur
          left
          rw [if_neg (by simp [hcf])]
          simp
        | succ k =>
          right
          exact (ih (cur + 1800) t).2 ⟨k, by omega, by omega, hle, hcf⟩
    · rw [if_neg hc]
      simp only [List.not_mem_nil, false_iff]
      rintro ⟨k, hk, hteq, hle, hcf⟩
      omega

theorem slotLoop_mem (to_dt d60 : Nat) (bk : List Nat) (cur t : Nat) :
    t ∈ slotLoop to_dt d60 bk cur ↔
      (∃ k, t = cur + 1800 * k) ∧ t + d60 ≤ to_dt ∧ conflictB bk d60 t = false := by
  rw [slotLoop_eq_iter to_dt d60 bk (to_dt + 1) cur (by omega),
      slotIter_mem to_dt d60 bk (to_dt + 1) cur t]
  constructor
  · rintro ⟨k, hk, hteq, hle, hcf⟩
    exact ⟨⟨k, hteq⟩, hle, hcf⟩
  · rintro ⟨⟨k, hteq⟩, hle, hcf⟩
    exact ⟨k, by omega, hteq, hle, hcf⟩

theorem slotIter_pairwise (to_dt d60 : Nat) (bk : List Nat) :
    ∀ (n cur : Nat), List.Pairwise (· < ·) (slotIter to_dt d60 bk cur n) := by
  intro n
  induction n with
  | zero => intro cur; simp [slotIter]
  | succ n ih =>
    intro cur
    rw [slotIter]
    by_cases hc : cur + d60 ≤ to_dt
    · rw [if_pos hc]
      refine List.pairwise_append.2 ⟨?_, ih (cur + 1800), ?_⟩
      · by_cases hx : conflictB bk d60 cur = true
        · rw [if_pos hx]; simp
        · rw [if_neg hx]; simp
      · intro a ha b hb
        have hac : a = cur := by
          by_cases hx : conflictB bk d60 cur = true
          · rw [if_pos hx] at ha; cases ha
          · rw [if_neg hx] at ha; simpa using ha
        obtain ⟨k, _, hbeq, _, _⟩ := (slotIter_mem to_dt d60 bk n (cur + 1800) b).1 hb
        omega
    · rw [if_neg hc]
      simp

theorem slotLoop_pairwise (to_dt d60 : Nat) (bk : List Nat) (cur : Nat) :
    List.Pairwise (· < ·) (slotLoop to_dt d60 bk cur) := by
  rw [slotLoop_eq_iter to_dt d60 bk (to_dt + 1) cur (by omega)]
  exact slotIter_pairwise to_dt d60 bk (to_dt + 1) cur

theorem conflictB_false_iff (bk : List Nat) (d60 t : Nat) :
    conflictB bk d60 t = false ↔ ∀ b ∈ bk, d60 ≤ secDist t b := by
  simp [conflictB, List.any_eq_false, Nat.not_lt]

theorem parseAll_ok_mem :
    ∀ (l : List Appt) (ts : List Nat), parseAll l = .ok ts →
      ∀ b, b ∈ ts ↔ ∃ a ∈ l, parseDT a.date_time = .ok b := by
  intro l
  induction l with
  | nil =>
    intro ts h b
    cases h
    simp
  | cons a rest ih =>
    intro ts h b
    rw [parseAll] at h
    cases hp : parseDT a.date_time with
    | error e => simp only [hp] at h; exact Except.noConfusion h
    | ok t =>
      simp only [hp] at h
      cases hr : parseAll rest with
      | error e => simp only [hr] at h; exact Except.noConfusion h
      | ok ts2 =>
        simp only [hr] at h
        cases h
        constructor
        · intro hb
          rcases List.mem_cons.1 hb with rfl | hb
          · exact ⟨a, List.mem_cons_self a rest, hp⟩
          · obtain ⟨a2, ha2, hpa2⟩ := (ih ts2 hr b).1 hb
            exact ⟨a2, List.mem_cons_of_mem a ha2, hpa2⟩
        · rintro ⟨a2, ha2, hpa2⟩
          rcases List.mem_cons.1 ha2 with rfl | ha2
          · have : t = b := by
              rw [hp] at hpa2
              cases hpa2
              rfl
            exact List.mem_cons.2 (Or.inl this.symm)
          · exact List.mem_cons.2 (Or.inr ((ih ts2 hr b).2 ⟨a2, ha2, hpa2⟩))

theorem filterPass_none (x : String) : filterPass none x = true := rfl

theorem listSub_nil : ∀ l : List Char, listSub [] l = true
  | [] => rfl
  | _ :: _ => rfl

theorem strIn_empty (hay : String) : strIn "" hay = true :=
  listSub_nil hay.data

theorem filterPass_some_iff (p x : String) :
    filterPass (some p) x = true ↔ strIn (pyLower p) (pyLower x) = true := by
  by_cases hp : p = ""
  · subst hp
    constructor
    · intro _
      have he : pyLower "" = "" := rfl
      rw [he]
      exact strIn_empty _
    · intro _
      rfl
  · have ht : pyTruthy (some p) = true := by simp [pyTruthy, hp]
    simp [filterPass, ht]

theorem append_ne_empty (d suf : String) (hs : suf.data.length ≠ 0) : (d ++ suf) ≠ "" := by
  intro h
  have h2 := congrArg (fun s : String => s.data.length) h
  simp only [String.data_append, List.length_append] at h2
  have h3 : ("" : String).data.length = 0 := rfl
  rw [h3] at h2
  omega

theorem resolveFrom_some (now : Nat) (str : String) (h : str ≠ "") :
    resolveFrom now (some str) = parseDT str := by
  rw [resolveFrom, if_pos (by simp [pyTruthy, h])]
  rfl

theorem resolveTo_some (from_dt : Nat) (str : String) (h : str ≠ "") :
    resolveTo from_dt (some str) = parseDT str := by
  rw [resolveTo, if_pos (by simp [pyTruthy, h])]
  rfl

/-- Claim C1: a successful `check_availability` call returns, in
strictly increasing (chronological) order, exactly the stride times
`08:00 + k·30min` of the requested date whose slot of the requested
duration fits inside the 08:00-17:00 working window and that keep a
distance of at least `duration_minutes` (in seconds, radius taken from
the request) from the start of every non-cancelled booking of that
provider on that date (provider matched by case-insensitive substring,
a booking's date window being `[T00:00, T23:59]`). -/
theorem check_availability_spec :
    ∀ (now : Nat) (date provider : String) (dur : Nat) (s : ApptStore)
      (slots : List String),
      check_availability now date provider dur s = .ok slots →
      ∃ from_dt to_dt t0 t1 times,
        parseDT (date ++ "T08:00") = .ok from_dt ∧
        parseDT (date ++ "T17:00") = .ok to_dt ∧
        parseDT (date ++ "T00:00") = .ok t0 ∧
        parseDT (date ++ "T23:59") = .ok t1 ∧
        slots = times.map formatDT ∧
        List.Pairwise (· < ·) times ∧
        (∀ t, t ∈ times ↔
          ((∃ k, t = from_dt + 1800 * k) ∧ t + dur * 60 ≤ to_dt ∧
           ∀ a ∈ s, a.status ≠ "cancelled" →
             strIn (pyLower provider) (pyLower a.provider) = true →
             ∀ b, parseDT a.date_time = .ok b → t0 ≤ b → b ≤ t1 →
               dur * 60 ≤ secDist t b)) := by
  intro now date provider dur s slots h
  rw [check_availability] at h
  cases hf : parseDT (date ++ "T08:00") with
  | error e => simp only [hf] at h; exact Except.noConfusion h
  | ok from_dt =>
  simp only [hf] at h
  cases hto : parseDT (date ++ "T17:00") with
  | error e => simp only [hto] at h; exact Except.noConfusion h
  | ok to_dt =>
  simp only [hto] at h
  cases hla : list_appointments now (some (date ++ "T00:00")) (some (date ++ "T23:59"))
      none (some provider) s with
  | error e => simp only [hla] at h; exact Except.noConfusion h
  | ok appts =>
  simp only [hla] at h
  cases hpa : parseAll appts with
  | error e => simp only [hpa] at h; exact Except.noConfusion h
  | ok booked =>
  simp only [hpa] at h
  cases h
  obtain ⟨fd, td, hfd, htd, heq⟩ :=
    list_appointments_ok now (some (date ++ "T00:00")) (some (date ++ "T23:59"))
      none (some provider) s appts hla
  rw [resolveFrom_some now _ (append_ne_empty date "T00:00" (by decide))] at hfd
  rw [resolveTo_some fd _ (append_ne_empty date "T23:59" (by decide))] at htd
  refine ⟨from_dt, to_dt, fd, td, slotLoop to_dt (dur * 60) booked from_dt,
    rfl, rfl, hfd, htd, rfl, slotLoop_pairwise to_dt (dur * 60) booked from_dt, ?_⟩
  intro t
  rw [slotLoop_mem]
  refine and_congr_right fun _ => and_congr_right fun _ => ?_
  rw [conflictB_false_iff]
  constructor
  · intro hall a ha hst hpr b hpb hb0 hb1
    apply hall
    rw [parseAll_ok_mem appts booked hpa b]
    refine ⟨a, ?_, hpb⟩
    rw [heq, List.mem_insertionSort, List.mem_filter]
    refine ⟨ha, (keepB_iff fd td none (some provider) a).2 ?_⟩
    exact ⟨hst, ⟨b, hpb, hb0, hb1⟩, filterPass_none _,
      (filterPass_some_iff provider _).2 hpr⟩
  · intro hall b hb
    obtain ⟨a, ha, hpb⟩ := (parseAll_ok_mem appts booked hpa b).1 hb
    rw [heq, List.mem_insertionSort, List.mem_filter] at ha
    obtain ⟨has, hkeep⟩ := ha
    obtain ⟨hst, ⟨t2, ht2, h20, h21⟩, _, hprov⟩ :=
      (keepB_iff fd td none (some provider) a).1 hkeep
    have hbt : t2 = b := by
      rw [hpb] at ht2
      cases ht2
      rfl
    subst hbt
    exact hall a has hst ((filterPass_some_iff provider _).1 hprov) t2 hpb h20 h21

theorem check_availability_eq_run (now : Nat) (date provider : String) (dur : Nat)
    (s : ApptStore) :
    check_availability now date provider dur s =
      check_availability_run now date provider dur s := by
  rw [check_availability, check_availability_run]
  cases h1 : parseDT (date ++ "T08:00") with
  | error e => simp only [h1]
  | ok from_dt =>
    simp only [h1]
    cases h2 : parseDT (date ++ "T17:00") with
    | error e => simp only [h2]
    | ok to_dt =>
      simp only [h2]
      cases h3 : list_appointments now (some (date ++ "T00:00")) (some (date ++ "T23:59"))
          none (some provider) s with
      | error e => simp only [h3]
      | ok appts =>
        simp only [h3]
        cases h4 : parseAll appts with
        | error e => simp only [h4]
        | ok booked =>
          simp only [h4]
          rw [slotLoop_eq_iter to_dt (dur * 60) booked (to_dt + 1) from_dt (by omega)]

/-- Witness for C1: one booking at 09:00 for Dr. Smith on 2025-06-01
with a 30-minute request excludes exactly the 09:00 candidate. -/
theorem check_availability_spec_witness :
    check_availability 0 "2025-06-01" "Dr. Smith" 30 [wAppt] = .ok wSlots ∧
    (∃ from_dt to_dt t0 t1 times,
      parseDT ("2025-06-01" ++ "T08:00") = .ok from_dt ∧
      parseDT ("2025-06-01" ++ "T17:00") = .ok to_dt ∧
      parseDT ("2025-06-01" ++ "T00:00") = .ok t0 ∧
      parseDT ("2025-06-01" ++ "T23:59") = .ok t1 ∧
      wSlots = times.map formatDT ∧
      List.Pairwise (· < ·) times ∧
      (∀ t, t ∈ times ↔
        ((∃ k, t = from_dt + 1800 * k) ∧ t + 30 * 60 ≤ to_dt ∧
         ∀ a ∈ [wAppt], a.status ≠ "cancelled" →
           strIn (pyLower "Dr. Smith") (pyLower a.provider) = true →
           ∀ b, parseDT a.date_time = .ok b → t0 ≤ b → b ≤ t1 →
             30 * 60 ≤ secDist t b))) := by
  have hW : check_availability 0 "2025-06-01" "Dr. Smith" 30 [wAppt] = .ok wSlots := by
    rw [check_availability_eq_run]
    rfl
  exact ⟨hW, check_availability_spec 0 "2025-06-01" "Dr. Smith" 30 [wAppt] wSlots hW⟩
